import Mathlib

/-!
Verification development for the skill-loop repository: a shallow embedding of
the routing resolver, the loop controller, the process executor's command
construction and restart policy, and the session registry's reconciliation
algorithm, together with theorems settling the specification claims.

External effects (process launching, tmux queries, the filesystem) are made
explicit: the executor's per-attempt outcome is a parameter, and reconciliation
receives an explicit environment describing the exit-code file, the backing
tmux session's liveness, and log-file modification times.
-/

namespace SkillLoop

/-- Models `config.Route` (internal/config): an ordered routing rule.
`When` is the trigger substring, `Criteria` the guidance text shown in the
prompt, `Skill` the target skill name or the terminal marker `<DONE>`. -/
structure Route where
  When : String
  Criteria : String
  Skill : String
deriving DecidableEq, Repr

/-- Models `config.Agent`: per-skill agent configuration (renamed from `Agent`
to avoid clashing with the field of the same name). -/
structure AgentConfig where
  Runtime : String
  Model : String
  Args : List String
deriving DecidableEq, Repr

/-- Models `config.Skill`: agent configuration plus the ordered route list. -/
structure Skill where
  Agent : AgentConfig
  Next : List Route
deriving DecidableEq, Repr

/-- Models `config.Config`. The Go `map[string]Skill` is embedded as an
association list; the loop controller only ever looks keys up. -/
structure Config where
  DefaultEntrypoint : String
  MaxIterations : Int
  Skills : List (String × Skill)
deriving DecidableEq, Repr

/-- Map lookup `cfg.Skills[name]` on the association-list embedding. -/
def lookupSkill (cfg : Config) (name : String) : Option Skill :=
  (cfg.Skills.find? (fun p => p.1 == name)).map (fun p => p.2)

/-- Does the character list `hay` start with `needle`? Helper for the
embedding of Go `strings.Contains`. -/
def startsWithL : List Char → List Char → Bool
  | _, [] => true
  | [], _ :: _ => false
  | h :: hs, n :: ns => h == n && startsWithL hs ns

/-- Does `needle` occur contiguously anywhere in `hay`? -/
def containsL (needle : List Char) : List Char → Bool
  | [] => needle.isEmpty
  | c :: hs => startsWithL (c :: hs) needle || containsL needle hs

/-- Models Go `strings.Contains(s, sub)`: case-sensitive substring test. -/
def goContains (s sub : String) : Bool :=
  containsL sub.toList s.toList

/-- Models `resolveNext` (orchestrator): first route whose trigger is empty or
contained in the summary wins; otherwise the terminal marker `<DONE>`. -/
def resolveNext : List Route → String → String
  | [], _ => "<DONE>"
  | r :: rs, summary =>
    if r.When == "" || goContains summary r.When then r.Skill
    else resolveNext rs summary

/-- Models Go `unicode.IsSpace` on the characters relevant here: space, tab,
newline, carriage return, vertical tab, form feed, NEL and NBSP. -/
def goIsSpace (c : Char) : Bool :=
  c = ' ' || c = '\t' || c = '\n' || c = '\r'
    || c.toNat = 11 || c.toNat = 12 || c.toNat = 133 || c.toNat = 160

/-- Models Go `strings.TrimSpace`: drop leading and trailing whitespace. -/
def goTrimSpace (s : String) : String :=
  String.mk (((s.toList.dropWhile goIsSpace).reverse.dropWhile goIsSpace).reverse)

/-- Accumulate decimal digits; any non-digit rejects the whole string. -/
def parseNatDigits (ds : List Char) : Option Nat :=
  ds.foldl
    (fun acc c => acc.bind (fun n => if c.isDigit then some (n * 10 + (c.toNat - 48)) else none))
    (some 0)

/-- Models Go `strconv.Atoi`: an optional sign followed by one or more
decimal digits (overflow is not modelled; exit codes are tiny). -/
def goAtoi (s : String) : Option Int :=
  match s.toList with
  | [] => none
  | '+' :: ds => if ds.isEmpty then none else (parseNatDigits ds).map Int.ofNat
  | '-' :: ds => if ds.isEmpty then none else (parseNatDigits ds).map (fun n => -(Int.ofNat n))
  | ds => (parseNatDigits ds).map Int.ofNat

/-- Models `executor.SkillResult`. -/
structure SkillResult where
  Summary : String
deriving DecidableEq, Repr

/-- Models `executor.ExecutionOptions`. `IdleTimeout` is in seconds (Go uses a
`time.Duration`); both fields are Go `int`s, embedded as `Int`. -/
structure ExecutionOptions where
  IdleTimeout : Int
  MaxRestarts : Int
deriving DecidableEq, Repr

/-- Models `normalizeOptions`: non-positive idle timeout defaults to 900
seconds, negative max-restarts defaults to 2. -/
def normalizeOptions (opts : ExecutionOptions) : ExecutionOptions :=
  let opts := if opts.IdleTimeout ≤ 0 then { opts with IdleTimeout := 900 } else opts
  if opts.MaxRestarts < 0 then { opts with MaxRestarts := 2 } else opts

/-- The executor's error taxonomy, one constructor per distinct `error` value
produced by `ExecuteSkill` / `buildCommand` / `extractResult` /
`executeSkillOnce` in executor.go. -/
inductive ExecError where
  | idleTimeout (seconds : Int)
  | commandFailed (msg : String)
  | noOutput
  | unsupportedAgent (agent : String)
deriving DecidableEq, Repr

/-- Models `extractResult`: trim surrounding whitespace; empty result is the
"no output from agent" error, otherwise the trimmed text is the summary. -/
def extractResult (text : String) : Except ExecError SkillResult :=
  let trimmed := goTrimSpace text
  if trimmed = "" then .error .noOutput
  else .ok { Summary := trimmed }

/-- Models `parseOutput`, which just delegates to `extractResult`. -/
def parseOutput (output : String) : Except ExecError SkillResult :=
  extractResult output

/-- Escape one character the way Go `%q` (`strconv.Quote`) renders it, for the
printable-ASCII inputs route triggers consist of. -/
def goQuoteChar (c : Char) : String :=
  if c = '"' then "\\\""
  else if c = '\\' then "\\\\"
  else if c = '\n' then "\\n"
  else if c = '\t' then "\\t"
  else if c = '\r' then "\\r"
  else String.singleton c

/-- Models Go `fmt.Sprintf("%q", s)` on printable input: the escaped text in
double quotes. -/
def goQuote (s : String) : String :=
  "\"" ++ String.join (s.toList.map goQuoteChar) ++ "\""

/-- The per-route fragment appended by `buildRouteInstruction`'s loop body. -/
def routeEntry (r : Route) : String :=
  if r.When ≠ "" then
    if r.Criteria ≠ "" then "\n- " ++ goQuote r.When ++ ": " ++ r.Criteria
    else "\n- " ++ goQuote r.When
  else
    if r.Criteria ≠ "" then "\n- Otherwise: " ++ r.Criteria
    else ""

/-- The `hasCriteria` scan at the top of `buildRouteInstruction`. -/
def hasCriteria (routes : List Route) : Bool :=
  routes.any (fun r => r.When != "" || r.Criteria != "")

/-- The fixed header line of the routing-instruction block. -/
def routeInstructionHeader : String :=
  "\nStart your output with the appropriate status marker on the first line, then provide your detailed response:"

/-- Models `buildRouteInstruction` (executor.go): empty unless some route has
a trigger or guidance; otherwise the header followed by each route's
fragment in declaration order. -/
def buildRouteInstruction (routes : List Route) : String :=
  if !hasCriteria routes then ""
  else routeInstructionHeader ++ String.join (routes.map routeEntry)

/-- Models `buildCommand` (executor.go): the fixed per-runtime command
template, or the "unsupported agent" configuration error. -/
def buildCommand (agent model : String) (extraArgs : List String) (prompt : String) :
    Except ExecError (String × List String) :=
  if agent = "claude" then
    .ok ("claude", ["-p", prompt] ++ (if model ≠ "" then ["--model", model] else []) ++ extraArgs)
  else if agent = "codex" then
    .ok ("codex", ["exec", prompt] ++ (if model ≠ "" then ["--model", model] else []) ++ extraArgs)
  else if agent = "opencode" then
    .ok ("opencode", ["run", prompt] ++ (if model ≠ "" then ["--model", model] else []) ++ extraArgs)
  else .error (.unsupportedAgent agent)

deriving instance DecidableEq for Except

/-- One observed outcome of `executeSkillOnce`: success with a parsed result,
an idle-timeout kill, or any other failure. The actual process behaviour is a
parameter of the embedding. -/
inductive AttemptOutcome where
  | ok (r : SkillResult)
  | idle
  | fail (msg : String)
deriving Repr

/-- Models the restart loop inside `ExecuteSkill`: attempt counter starts at
0; an idle timeout with `attempt < maxRestarts` re-runs the identical command,
any other error (or exhaustion of the budget) returns immediately. The second
component counts how many times `executeSkillOnce` ran. -/
def restartLoop (once : Nat → AttemptOutcome) (idleTimeout : Int) (maxRestarts : Nat)
    (attempt : Nat) : Except ExecError SkillResult × Nat :=
  match once attempt with
  | .ok r => (.ok r, attempt + 1)
  | .fail msg => (.error (.commandFailed msg), attempt + 1)
  | .idle =>
    if h : attempt < maxRestarts then
      restartLoop once idleTimeout maxRestarts (attempt + 1)
    else
      (.error (.idleTimeout idleTimeout), attempt + 1)
termination_by maxRestarts - attempt
decreasing_by omega

/-- The full prompt built at the top of `ExecuteSkill`. -/
def buildFullPrompt (name prevSummary : String) (routes : List Route) : String :=
  "/" ++ name ++ "\n" ++ "\nDo not output your reasoning in stdout.\n"
    ++ (if prevSummary ≠ "" then "\nPrevious skill output:\n" ++ prevSummary ++ "\n" else "")
    ++ buildRouteInstruction routes

/-- Models `ExecuteSkill` (executor.go): default the empty agent to
"claude", normalize options, build the prompt and command (a command error
returns before any attempt), then run the restart loop. `once` gives each
attempt's outcome; the second component is the number of attempts made. -/
def ExecuteSkill (name agent model : String) (extraArgs : List String) (prevSummary : String)
    (routes : List Route) (opts : ExecutionOptions) (once : Nat → AttemptOutcome) :
    Except ExecError SkillResult × Nat :=
  let agent := if agent = "" then "claude" else agent
  let opts := normalizeOptions opts
  let fullPrompt := buildFullPrompt name prevSummary routes
  match buildCommand agent model extraArgs fullPrompt with
  | .error e => (.error e, 0)
  | .ok _ => restartLoop once opts.IdleTimeout opts.MaxRestarts.toNat 0

/-- Models `orchestrator.DefaultMaxIterations`. -/
def DefaultMaxIterations : Int := 100

/-- The loop controller's error taxonomy, one constructor per distinct error
return in `RunWith` / `ValidateEntrypoint`. -/
inductive RunError where
  | entrypointRequired
  | entrypointNotFound (e : String)
  | skillNotFound (s : String)
  | skillFailed (s : String) (msg : String)
  | nextSkillNotFound (next source : String)
  | maxIterationsReached (n : Int)
deriving DecidableEq, Repr

/-- Models `Config.ValidateEntrypoint`. -/
def Config.ValidateEntrypoint (c : Config) (entrypoint : String) : Except RunError Unit :=
  if entrypoint = "" then .error .entrypointRequired
  else
    match lookupSkill c entrypoint with
    | some _ => .ok ()
    | none => .error (.entrypointNotFound entrypoint)

/-- One call the loop controller makes to its executor: the arguments of
`exec.ExecuteSkill(currentSkill, runtime, skill.Agent.Model, prevSummary)`. -/
structure ExecCall where
  skill : String
  runtime : String
  model : String
  prevSummary : String
deriving DecidableEq, Repr

/-- The executor call `RunWith` makes for the current skill: the configured
runtime with the empty string defaulted to "claude", the configured model,
and the previous summary. -/
def mkExecCall (currentSkill : String) (skill : Skill) (prevSummary : String) : ExecCall :=
  { skill := currentSkill,
    runtime := if skill.Agent.Runtime = "" then "claude" else skill.Agent.Runtime,
    model := skill.Agent.Model,
    prevSummary := prevSummary }

/-- Models the `for i := 0; i < maxIterations; i++` loop of `RunWith`.
`ex` abstracts the injected `SkillExecutor` (as in the tests' mock, results
are indexed by call count); `trace` accumulates the executor calls made, so
`trace.length` is the number of executed steps. -/
def runLoop (cfg : Config) (ex : Nat → Except String SkillResult) (maxIter : Int) :
    Nat → String → String → List ExecCall → Except RunError Unit × List ExecCall
  | 0, _, _, trace => (.error (.maxIterationsReached maxIter), trace)
  | fuel + 1, currentSkill, prevSummary, trace =>
    match lookupSkill cfg currentSkill with
    | none => (.error (.skillNotFound currentSkill), trace)
    | some skill =>
      let call := mkExecCall currentSkill skill prevSummary
      match ex trace.length with
      | .error msg => (.error (.skillFailed currentSkill msg), trace ++ [call])
      | .ok result =>
        let nextSkill := resolveNext skill.Next result.Summary
        if nextSkill = "<DONE>" then (.ok (), trace ++ [call])
        else
          match lookupSkill cfg nextSkill with
          | none => (.error (.nextSkillNotFound nextSkill currentSkill), trace ++ [call])
          | some _ => runLoop cfg ex maxIter fuel nextSkill result.Summary (trace ++ [call])

/-- Models `orchestrator.RunWith`: resolve the iteration cap (argument, else
config, else 100) and the entrypoint (argument, else config default), validate
the entrypoint, then drive the loop. Returns the outcome and the trace of
executor calls. -/
def RunWith (cfg : Config) (maxIterations : Int) (prompt entrypoint : String)
    (ex : Nat → Except String SkillResult) : Except RunError Unit × List ExecCall :=
  let m1 := if maxIterations ≤ 0 then cfg.MaxIterations else maxIterations
  let m := if m1 ≤ 0 then DefaultMaxIterations else m1
  let e := if entrypoint = "" then cfg.DefaultEntrypoint else entrypoint
  match cfg.ValidateEntrypoint e with
  | .error err => (.error err, [])
  | .ok _ => runLoop cfg ex m m.toNat e prompt []

/-- Models `session.Status`. -/
inductive GoStatus where
  | pending
  | running
  | idle
  | done
  | failed
  | stopped
deriving DecidableEq, Repr

/-- The fields of `session.Metadata` that `Reconcile` reads or writes.
Timestamps are abstract `Nat` instants; `EndedAt` is the nullable
`*time.Time`. -/
structure Metadata where
  Status : GoStatus
  LastError : String
  EndedAt : Option Nat
  LastOutputAt : Nat
deriving DecidableEq, Repr

/-- The external state `Reconcile` observes: the exit-code file's content (if
the file exists), whether `tmux has-session` reports the backing session
alive, the log files' modification times (when they exist), and the current
clock. Failures of the tmux binary itself are not modelled. -/
structure SessionEnv where
  exitFile : Option String
  tmuxAlive : Bool
  stdoutMod : Option Nat
  stderrMod : Option Nat
  now : Nat
deriving DecidableEq, Repr

/-- Models `ReadExitCode`: absent or blank file means "no exit code yet";
unparsable content is an error; otherwise the parsed code. -/
def ReadExitCode (content : Option String) : Except String (Option Int) :=
  match content with
  | none => .ok none
  | some data =>
    let s := goTrimSpace data
    if s = "" then .ok none
    else
      match goAtoi s with
      | some code => .ok (some code)
      | none => .error ("parse exit code " ++ s)

/-- Models `updateLastOutputAt`: advance `LastOutputAt` to the latest
log-file modification time that is after it. -/
def updateLastOutputAt (meta : Metadata) (env : SessionEnv) : Metadata :=
  let l0 := meta.LastOutputAt
  let l1 := match env.stdoutMod with
    | some m => if l0 < m then m else l0
    | none => l0
  let l2 := match env.stderrMod with
    | some m => if l1 < m then m else l1
    | none => l1
  { meta with LastOutputAt := l2 }

/-- Models `Reconcile` (session.go). The boolean in the result records
whether a `tmux kill-session` command was actually issued (`killTMuxSession`
only kills after `HasTMuxSession` reports the session alive). Branches:
exit-code file present classifies Done/Failed and stamps `EndedAt` if unset;
else a live backing session self-heals the status to Running; else a vanished
session classifies Failed, keeping a pre-existing error message. -/
def Reconcile (meta : Metadata) (env : SessionEnv) : Except String (Metadata × Bool) :=
  let meta := updateLastOutputAt meta env
  match ReadExitCode env.exitFile with
  | .error e => .error e
  | .ok (some exitCode) =>
    let killed := env.tmuxAlive
    let meta :=
      if exitCode = 0 then { meta with Status := .done, LastError := "" }
      else { meta with Status := .failed, LastError := s!"agent exited with code {exitCode}" }
    let meta := if meta.EndedAt = none then { meta with EndedAt := some env.now } else meta
    .ok (meta, killed)
  | .ok none =>
    if env.tmuxAlive then
      if meta.Status ≠ .running then
        .ok ({ meta with Status := .running, EndedAt := none }, false)
      else .ok (meta, false)
    else
      if meta.Status = .running ∨ meta.Status = .idle ∨ meta.Status = .pending then
        let msg :=
          if meta.LastError = "" then "tmux session disappeared before exit code was written"
          else meta.LastError
        let meta := { meta with Status := GoStatus.failed, LastError := msg }
        let meta := if meta.EndedAt = none then { meta with EndedAt := some env.now } else meta
        .ok (meta, false)
      else .ok (meta, false)

/-- Rendering of one route in the instruction fragment as the spec describes
it for claim C7: a trigger-bearing route shows its quoted trigger (with its
guidance when present), a trigger-less route with guidance renders as
"Otherwise: guidance", and a route with neither contributes nothing. -/
def routeLineSpec (r : Route) : String :=
  if r.When ≠ "" then
    if r.Criteria ≠ "" then "\n- " ++ goQuote r.When ++ ": " ++ r.Criteria
    else "\n- " ++ goQuote r.When
  else if r.Criteria ≠ "" then "\n- Otherwise: " ++ r.Criteria
  else ""

/-- A skill with no agent configuration that always routes to "b". -/
def skillToB : Skill :=
  { Agent := { Runtime := "", Model := "", Args := [] },
    Next := [{ When := "", Criteria := "", Skill := "b" }] }

/-- A skill with no agent configuration that always routes to "a". -/
def skillToA : Skill :=
  { Agent := { Runtime := "", Model := "", Args := [] },
    Next := [{ When := "", Criteria := "", Skill := "a" }] }

/-- A two-node mutual-loop routing graph with no terminal route: skill "a"
always routes to "b" and "b" always routes to "a" (witness fixture). -/
def mutualLoopCfg : Config :=
  { DefaultEntrypoint := "a", MaxIterations := 0,
    Skills := [("a", skillToB), ("b", skillToA)] }

/-- An executor stub whose every call succeeds with summary "x". -/
def exAlwaysOk : Nat → Except String SkillResult :=
  fun _ => .ok { Summary := "x" }

/-- A one-skill graph whose skill has an empty configured runtime and routes
straight to the terminal marker (witness fixture for the runtime default). -/
def emptyRuntimeCfg : Config :=
  { DefaultEntrypoint := "impl", MaxIterations := 0,
    Skills :=
      [("impl", { Agent := { Runtime := "", Model := "", Args := [] },
                  Next := [{ When := "", Criteria := "", Skill := "<DONE>" }] })] }

/-- The metadata produced by the exit-code branch of `Reconcile`: Done with a
cleared error for exit 0, Failed with a recorded message otherwise; `EndedAt`
stamped with the current instant only when previously unset. -/
def reconciledExit (meta : Metadata) (env : SessionEnv) (code : Int) : Metadata :=
  { Status := if code = 0 then GoStatus.done else GoStatus.failed,
    LastError := if code = 0 then "" else s!"agent exited with code {code}",
    EndedAt := if meta.EndedAt = none then some env.now else meta.EndedAt,
    LastOutputAt := (updateLastOutputAt meta env).LastOutputAt }

/-- A running session with no recorded end or error (fixture). -/
def metaRunningFx : Metadata :=
  { Status := GoStatus.running, LastError := "", EndedAt := none, LastOutputAt := 0 }

/-- A completed session that already has an end timestamp (fixture). -/
def metaDoneFx : Metadata :=
  { Status := GoStatus.done, LastError := "", EndedAt := some 3, LastOutputAt := 0 }

/-- A stopped session with an error message and end timestamp (fixture). -/
def metaStoppedFx : Metadata :=
  { Status := GoStatus.stopped, LastError := "stopped by user", EndedAt := some 2,
    LastOutputAt := 0 }

/-- The session healed back to Running by the live-session branch (fixture). -/
def metaHealedFx : Metadata :=
  { Status := GoStatus.running, LastError := "", EndedAt := none, LastOutputAt := 0 }

/-- Environment: exit-code file holds 0, backing session still alive (fixture). -/
def envExitZeroFx : SessionEnv :=
  { exitFile := some "0", tmuxAlive := true, stdoutMod := none, stderrMod := none, now := 5 }

/-- Environment: exit-code file holds 0, backing session already gone (fixture). -/
def envExitZeroDeadFx : SessionEnv :=
  { exitFile := some "0", tmuxAlive := false, stdoutMod := none, stderrMod := none, now := 9 }

/-- Environment: no exit-code file, backing session alive (fixture). -/
def envNoExitAliveFx : SessionEnv :=
  { exitFile := none, tmuxAlive := true, stdoutMod := none, stderrMod := none, now := 7 }

/-- Environment: no exit-code file and no backing session (fixture). -/
def envVanishedFx : SessionEnv :=
  { exitFile := none, tmuxAlive := false, stdoutMod := none, stderrMod := none, now := 11 }

/-- An executor call whose runtime is the looked-up skill's configured
runtime with the empty string defaulted to "claude". -/
def runtimeDefaulted (cfg : Config) (c : ExecCall) : Prop :=
  ∀ sk : Skill, lookupSkill cfg c.skill = some sk →
    c.runtime = (if sk.Agent.Runtime = "" then "claude" else sk.Agent.Runtime)

lemma stringJoin_append (l1 l2 : List String) :
    String.join (l1 ++ l2) = String.join l1 ++ String.join l2 := by
  rw [String.join_eq, String.join_eq, String.join_eq]
  apply congrArg String.mk
  simp

lemma routeEntry_eq_spec (r : Route) : routeEntry r = routeLineSpec r := rfl

lemma hasCriteria_iff (routes : List Route) :
    hasCriteria routes = true ↔ ∃ r ∈ routes, r.When ≠ "" ∨ r.Criteria ≠ "" := by
  simp [hasCriteria, List.any_eq_true, bne_iff_ne]

/-- C1: the routing resolver returns the target of the first route whose
trigger is empty or occurs (case-sensitively) as a substring of the summary,
and `<DONE>` for an empty or fully non-matching route list; in particular the
two-route example resolves "needs work" to "impl" and
"all good <REVIEW_OK>" to "<DONE>". -/
theorem C1_resolveNext_first_match :
    (∀ (routes : List Route) (summary : String),
      resolveNext routes summary =
        (((routes.find? (fun r => r.When == "" || goContains summary r.When)).map
            (fun r => r.Skill)).getD "<DONE>"))
    ∧ resolveNext
        [{ When := "<REVIEW_OK>", Criteria := "", Skill := "<DONE>" },
         { When := "", Criteria := "", Skill := "impl" }] "needs work" = "impl"
    ∧ resolveNext
        [{ When := "<REVIEW_OK>", Criteria := "", Skill := "<DONE>" },
         { When := "", Criteria := "", Skill := "impl" }] "all good <REVIEW_OK>" = "<DONE>" := by
  refine ⟨?_, by decide, by decide⟩
  intro routes summary
  induction routes with
  | nil => rfl
  | cons r rs ih =>
    cases hb : (r.When == "" || goContains summary r.When) with
    | true => simp [resolveNext, List.find?, hb]
    | false => simp [resolveNext, List.find?, hb, ih]

/-- C6: result extraction returns the raw output trimmed of surrounding
whitespace verbatim as the summary, and a "no output" error exactly when the
trimmed output is empty; in particular "  \nSUMMARY TEXT\n  " yields the
summary "SUMMARY TEXT". -/
theorem C6_extractResult_trims :
    (∀ text : String,
      extractResult text =
        if goTrimSpace text = "" then .error .noOutput
        else .ok { Summary := goTrimSpace text })
    ∧ extractResult "  \nSUMMARY TEXT\n  " = .ok { Summary := "SUMMARY TEXT" }
    ∧ extractResult "" = .error .noOutput
    ∧ extractResult " \t\n " = .error .noOutput := by
  exact ⟨fun text => rfl, by decide, by decide, by decide⟩

/-- C7: the routing-instruction fragment is non-empty only if some route
carries a trigger or guidance; when some route does, it is the fixed header
followed by each route's spec-described line in declaration order (quoted
trigger, optional guidance, "Otherwise: guidance" for the trigger-less route);
and a route with neither trigger nor guidance contributes nothing. -/
theorem C7_route_instruction :
    (∀ routes : List Route,
      buildRouteInstruction routes ≠ "" → ∃ r ∈ routes, r.When ≠ "" ∨ r.Criteria ≠ "")
    ∧ (∀ routes : List Route, (∃ r ∈ routes, r.When ≠ "" ∨ r.Criteria ≠ "") →
        buildRouteInstruction routes
          = routeInstructionHeader ++ String.join (routes.map routeLineSpec))
    ∧ (∀ (l1 l2 : List Route) (r : Route), r.When = "" → r.Criteria = "" →
        buildRouteInstruction (l1 ++ r :: l2) = buildRouteInstruction (l1 ++ l2)) := by
  refine ⟨?_, ?_, ?_⟩
  · intro routes hne
    by_contra hnone
    have hf : ¬hasCriteria routes = true := fun h => hnone ((hasCriteria_iff routes).mp h)
    have hf2 : hasCriteria routes = false := by simpa using hf
    simp [buildRouteInstruction, hf2] at hne
  · intro routes hex
    have hc : hasCriteria routes = true := (hasCriteria_iff routes).mpr hex
    have : routes.map routeEntry = routes.map routeLineSpec := by
      simp [routeEntry_eq_spec]
    simp [buildRouteInstruction, hc, this]
  · intro l1 l2 r hw hc
    have hcrit : hasCriteria (l1 ++ r :: l2) = hasCriteria (l1 ++ l2) := by
      simp [hasCriteria, hw, hc]
    have hentry : routeEntry r = "" := by
      simp [routeEntry, hw, hc]
    by_cases h : hasCriteria (l1 ++ l2) = true
    · simp only [buildRouteInstruction, hcrit, h]
      rw [List.map_append, List.map_append, List.map_cons]
      rw [stringJoin_append, stringJoin_append]
      simp [String.join, hentry]
    · have h2 : hasCriteria (l1 ++ l2) = false := by simpa using h
      simp [buildRouteInstruction, hcrit, h2]

/-- Witness for C7: a single route with trigger "<A>" and guidance "crit"
produces exactly the header followed by its rendered line. -/
theorem C7_route_instruction_witness :
    buildRouteInstruction [{ When := "<A>", Criteria := "crit", Skill := "x" }]
      = routeInstructionHeader
        ++ String.join ([{ When := "<A>", Criteria := "crit", Skill := "x" }].map routeLineSpec) :=
  C7_route_instruction.2.1 [{ When := "<A>", Criteria := "crit", Skill := "x" }]
    ⟨{ When := "<A>", Criteria := "crit", Skill := "x" }, by decide, by decide⟩

lemma restartLoop_unfold (once : Nat → AttemptOutcome) (t : Int) (m a : Nat) :
    restartLoop once t m a =
      match once a with
      | .ok r => (.ok r, a + 1)
      | .fail msg => (.error (.commandFailed msg), a + 1)
      | .idle =>
        if a < m then restartLoop once t m (a + 1) else (.error (.idleTimeout t), a + 1) := by
  rw [restartLoop]
  split <;> simp

lemma restartLoop_ok (once : Nat → AttemptOutcome) (t : Int) (m a : Nat) (r : SkillResult)
    (h : once a = .ok r) : restartLoop once t m a = (.ok r, a + 1) := by
  rw [restartLoop_unfold, h]

lemma restartLoop_fail (once : Nat → AttemptOutcome) (t : Int) (m a : Nat) (msg : String)
    (h : once a = .fail msg) : restartLoop once t m a = (.error (.commandFailed msg), a + 1) := by
  rw [restartLoop_unfold, h]

lemma restartLoop_idle_step (once : Nat → AttemptOutcome) (t : Int) (m a : Nat)
    (h : once a = .idle) (hlt : a < m) : restartLoop once t m a = restartLoop once t m (a + 1) := by
  rw [restartLoop_unfold, h]
  exact if_pos hlt

lemma restartLoop_idle_stop (once : Nat → AttemptOutcome) (t : Int) (m a : Nat)
    (h : once a = .idle) (hge : ¬a < m) :
    restartLoop once t m a = (.error (.idleTimeout t), a + 1) := by
  rw [restartLoop_unfold, h]
  exact if_neg hge

lemma ExecuteSkill_claude (name model : String) (extraArgs : List String) (prevSummary : String)
    (routes : List Route) (opts : ExecutionOptions) (once : Nat → AttemptOutcome) :
    ExecuteSkill name "claude" model extraArgs prevSummary routes opts once
      = restartLoop once (normalizeOptions opts).IdleTimeout
          (normalizeOptions opts).MaxRestarts.toNat 0 := by
  simp [ExecuteSkill, buildCommand]

lemma normalizeOptions_id (t m : Int) (ht : ¬t ≤ 0) (hm : ¬m < 0) :
    normalizeOptions { IdleTimeout := t, MaxRestarts := m } =
      { IdleTimeout := t, MaxRestarts := m } := by
  simp [normalizeOptions, ht, hm]

/-- C2: an attempt failing with an idle timeout is retried with the identical
command up to maxRestarts extra attempts — idle-then-success returns success
in two attempts when maxRestarts ≥ 1, returns the idle-timeout failure after
exactly one attempt when maxRestarts = 0, and any non-idle error is returned
immediately after one attempt without retry. -/
theorem C2_idle_retry (name model : String) (extraArgs : List String) (prevSummary : String)
    (routes : List Route) (idleT m : Int) (once : Nat → AttemptOutcome) (r : SkillResult)
    (hidle : 0 < idleT) (h0 : once 0 = .idle) (h1 : once 1 = .ok r) :
    (1 ≤ m →
      ExecuteSkill name "claude" model extraArgs prevSummary routes
        { IdleTimeout := idleT, MaxRestarts := m } once = (.ok r, 2))
    ∧ ExecuteSkill name "claude" model extraArgs prevSummary routes
        { IdleTimeout := idleT, MaxRestarts := 0 } once
        = (.error (.idleTimeout idleT), 1)
    ∧ (∀ (once2 : Nat → AttemptOutcome) (msg : String) (m2 : Int), once2 0 = .fail msg →
        ExecuteSkill name "claude" model extraArgs prevSummary routes
          { IdleTimeout := idleT, MaxRestarts := m2 } once2
          = (.error (.commandFailed msg), 1)) := by
  refine ⟨?_, ?_, ?_⟩
  · intro hm
    rw [ExecuteSkill_claude, normalizeOptions_id idleT m (by omega) (by omega)]
    rw [restartLoop_idle_step once idleT m.toNat 0 h0 (by omega)]
    exact restartLoop_ok once idleT m.toNat 1 r h1
  · rw [ExecuteSkill_claude, normalizeOptions_id idleT 0 (by omega) (by omega)]
    exact restartLoop_idle_stop once idleT (Int.toNat 0) 0 h0 (by omega)
  · intro once2 msg m2 hfail
    rw [ExecuteSkill_claude]
    exact restartLoop_fail once2 _ _ 0 msg hfail

/-- Witness for C2: with maxRestarts 1, a first attempt that idles out and a
second that succeeds yields the success after two attempts. -/
theorem C2_idle_retry_witness :
    ExecuteSkill "s" "claude" "" [] "" [] { IdleTimeout := 5, MaxRestarts := 1 }
      (fun n => if n = 0 then .idle else .ok { Summary := "done" })
      = (.ok { Summary := "done" }, 2) :=
  (C2_idle_retry "s" "" [] "" [] 5 1
      (fun n => if n = 0 then .idle else .ok { Summary := "done" })
      { Summary := "done" } (by omega) rfl rfl).1 (by omega)

/-- C8: any runtime outside {claude, codex, opencode} makes command
construction fail with the configuration error, which the Executor returns
with zero attempts made (before any process attempt, never retried); each
recognized runtime yields its fixed command template with the model flag only
when a model is given, then the pass-through extra arguments. -/
theorem C8_unknown_runtime (agent : String)
    (h1 : agent ≠ "claude") (h2 : agent ≠ "codex") (h3 : agent ≠ "opencode") :
    (∀ (model : String) (extraArgs : List String) (prompt : String),
      buildCommand agent model extraArgs prompt = .error (.unsupportedAgent agent))
    ∧ (agent ≠ "" → ∀ (name model : String) (extraArgs : List String) (prevSummary : String)
        (routes : List Route) (opts : ExecutionOptions) (once : Nat → AttemptOutcome),
        ExecuteSkill name agent model extraArgs prevSummary routes opts once
          = (.error (.unsupportedAgent agent), 0))
    ∧ (∀ (model : String) (extraArgs : List String) (prompt : String),
        buildCommand "claude" model extraArgs prompt
          = .ok ("claude", ["-p", prompt]
              ++ (if model ≠ "" then ["--model", model] else []) ++ extraArgs)
        ∧ buildCommand "codex" model extraArgs prompt
          = .ok ("codex", ["exec", prompt]
              ++ (if model ≠ "" then ["--model", model] else []) ++ extraArgs)
        ∧ buildCommand "opencode" model extraArgs prompt
          = .ok ("opencode", ["run", prompt]
              ++ (if model ≠ "" then ["--model", model] else []) ++ extraArgs)) := by
  refine ⟨?_, ?_, ?_⟩
  · intro model extraArgs prompt
    simp [buildCommand, h1, h2, h3]
  · intro hne name model extraArgs prevSummary routes opts once
    simp [ExecuteSkill, hne, buildCommand, h1, h2, h3]
  · intro model extraArgs prompt
    refine ⟨by simp [buildCommand], by simp [buildCommand], by simp [buildCommand]⟩

/-- Witness for C8: the runtime "gpt" is rejected by command construction and
makes the Executor fail with zero attempts. -/
theorem C8_unknown_runtime_witness :
    buildCommand "gpt" "" [] "p" = .error (.unsupportedAgent "gpt")
    ∧ ExecuteSkill "n" "gpt" "" [] "" [] { IdleTimeout := 0, MaxRestarts := 0 }
        (fun _ => .idle) = (.error (.unsupportedAgent "gpt"), 0) :=
  ⟨(C8_unknown_runtime "gpt" (by decide) (by decide) (by decide)).1 "" [] "p",
   (C8_unknown_runtime "gpt" (by decide) (by decide) (by decide)).2.1 (by decide)
     "n" "" [] "" [] { IdleTimeout := 0, MaxRestarts := 0 } (fun _ => .idle)⟩

lemma runLoop_calls_runtime (cfg : Config) (ex : Nat → Except String SkillResult) (maxIter : Int) :
    ∀ (fuel : Nat) (cur prev : String) (trace : List ExecCall),
      (∀ c ∈ trace, runtimeDefaulted cfg c) →
      ∀ c ∈ (runLoop cfg ex maxIter fuel cur prev trace).2, runtimeDefaulted cfg c := by
  intro fuel
  induction fuel with
  | zero =>
    intro cur prev trace hinv
    simpa [runLoop] using hinv
  | succ n ih =>
    intro cur prev trace hinv
    have hstep : ∀ (skill : Skill), lookupSkill cfg cur = some skill →
        ∀ c ∈ trace ++ [mkExecCall cur skill prev], runtimeDefaulted cfg c := by
      intro skill hlk c hc
      rcases List.mem_append.mp hc with hold | hnew
      · exact hinv c hold
      · have hceq : c = mkExecCall cur skill prev := by simpa using hnew
        intro sk hsk
        rw [hceq] at hsk ⊢
        simp only [mkExecCall] at hsk ⊢
        rw [hlk] at hsk
        injection hsk with hsk
        rw [hsk]
    simp only [runLoop]
    cases hlk : lookupSkill cfg cur with
    | none => simpa using hinv
    | some skill =>
      simp only []
      cases hex : ex trace.length with
      | error msg =>
        simpa using hstep skill hlk
      | ok result =>
        dsimp only
        by_cases hdone : resolveNext skill.Next result.Summary = "<DONE>"
        · rw [if_pos hdone]
          simpa using hstep skill hlk
        · rw [if_neg hdone]
          cases hlk2 : lookupSkill cfg (resolveNext skill.Next result.Summary) with
          | none => simpa using hstep skill hlk
          | some skill2 =>
            exact ih _ _ _ (hstep skill hlk)

/-- C9: an empty runtime identifier silently defaults to "claude": the
Executor behaves identically to an explicit "claude" runtime, and every
executor call the loop controller makes for a skill whose configured runtime
is empty carries the runtime "claude". -/
theorem C9_empty_runtime_defaults :
    (∀ (name model : String) (extraArgs : List String) (prevSummary : String)
        (routes : List Route) (opts : ExecutionOptions) (once : Nat → AttemptOutcome),
      ExecuteSkill name "" model extraArgs prevSummary routes opts once
        = ExecuteSkill name "claude" model extraArgs prevSummary routes opts once)
    ∧ (∀ (cfg : Config) (maxIterations : Int) (prompt entrypoint : String)
        (ex : Nat → Except String SkillResult) (c : ExecCall) (sk : Skill),
        c ∈ (RunWith cfg maxIterations prompt entrypoint ex).2 →
        lookupSkill cfg c.skill = some sk → sk.Agent.Runtime = "" →
        c.runtime = "claude") := by
  constructor
  · intro name model extraArgs prevSummary routes opts once
    simp [ExecuteSkill]
  · intro cfg maxIterations prompt entrypoint ex c sk hmem hlk hrt
    simp only [RunWith] at hmem
    split at hmem
    · simp at hmem
    · have hdef : runtimeDefaulted cfg c :=
        runLoop_calls_runtime cfg ex _ _ _ _ [] (by simp) c hmem
      have := hdef sk hlk
      rw [hrt] at this
      simpa using this

/-- Witness for C9: in a one-skill graph whose configured runtime is empty,
the single executor call made by the loop controller carries runtime
"claude". -/
theorem C9_empty_runtime_defaults_witness :
    ({ skill := "impl", runtime := "claude", model := "", prevSummary := "" } : ExecCall).runtime
      = "claude" :=
  C9_empty_runtime_defaults.2 emptyRuntimeCfg 10 "" "" exAlwaysOk
    { skill := "impl", runtime := "claude", model := "", prevSummary := "" }
    { Agent := { Runtime := "", Model := "", Args := [] },
      Next := [{ When := "", Criteria := "", Skill := "<DONE>" }] }
    (by decide) (by decide) rfl

lemma runLoop_budget (cfg : Config) (ex : Nat → Except String SkillResult) (maxIter : Int)
    (hex : ∀ k, ∃ r, ex k = .ok r)
    (hclosed : ∀ (name : String) (sk : Skill), lookupSkill cfg name = some sk →
      ∀ s, resolveNext sk.Next s ≠ "<DONE>"
        ∧ (lookupSkill cfg (resolveNext sk.Next s)).isSome) :
    ∀ (fuel : Nat) (cur prev : String) (trace : List ExecCall),
      (lookupSkill cfg cur).isSome →
      (runLoop cfg ex maxIter fuel cur prev trace).1 = .error (.maxIterationsReached maxIter)
      ∧ (runLoop cfg ex maxIter fuel cur prev trace).2.length = trace.length + fuel := by
  intro fuel
  induction fuel with
  | zero =>
    intro cur prev trace hcur
    simp [runLoop]
  | succ n ih =>
    intro cur prev trace hcur
    obtain ⟨skill, hlk⟩ := Option.isSome_iff_exists.mp hcur
    obtain ⟨r, hr⟩ := hex trace.length
    have hnd := (hclosed cur skill hlk r.Summary).1
    have hns := (hclosed cur skill hlk r.Summary).2
    obtain ⟨skill2, hlk2⟩ := Option.isSome_iff_exists.mp hns
    simp only [runLoop]
    rw [hlk]
    dsimp only
    rw [hr]
    dsimp only
    rw [if_neg hnd, hlk2]
    dsimp only
    have hrec := ih (resolveNext skill.Next r.Summary) r.Summary
      (trace ++ [mkExecCall cur skill prev]) (by rw [hlk2]; rfl)
    refine ⟨hrec.1, ?_⟩
    rw [hrec.2]
    simp
    omega

/-- C5: in a routing graph where no route ever resolves to the terminal
marker (and every resolved target exists), a run whose every step succeeds
and whose iteration cap is a positive N executes exactly N steps and then
fails with the iteration-budget error — an outcome distinct from normal
termination and from step-execution errors. -/
theorem C5_iteration_budget (cfg : Config) (ex : Nat → Except String SkillResult)
    (maxIter : Int) (prompt entrypoint : String)
    (hpos : 0 < maxIter)
    (hex : ∀ k, ∃ r, ex k = .ok r)
    (hclosed : ∀ (name : String) (sk : Skill), lookupSkill cfg name = some sk →
      ∀ s, resolveNext sk.Next s ≠ "<DONE>"
        ∧ (lookupSkill cfg (resolveNext sk.Next s)).isSome)
    (hentry : (if entrypoint = "" then cfg.DefaultEntrypoint else entrypoint) ≠ "")
    (hlk : (lookupSkill cfg (if entrypoint = "" then cfg.DefaultEntrypoint else entrypoint)).isSome) :
    (RunWith cfg maxIter prompt entrypoint ex).1 = .error (.maxIterationsReached maxIter)
    ∧ (RunWith cfg maxIter prompt entrypoint ex).2.length = maxIter.toNat
    ∧ (RunWith cfg maxIter prompt entrypoint ex).1 ≠ .ok ()
    ∧ (∀ (s msg : String),
        (RunWith cfg maxIter prompt entrypoint ex).1 ≠ .error (.skillFailed s msg)) := by
  obtain ⟨sk0, hsk0⟩ := Option.isSome_iff_exists.mp hlk
  have hval : cfg.ValidateEntrypoint (if entrypoint = "" then cfg.DefaultEntrypoint else entrypoint)
      = .ok () := by
    rw [Config.ValidateEntrypoint, if_neg hentry, hsk0]
  have hrw : RunWith cfg maxIter prompt entrypoint ex
      = runLoop cfg ex maxIter maxIter.toNat
          (if entrypoint = "" then cfg.DefaultEntrypoint else entrypoint) prompt [] := by
    rw [RunWith]
    simp only [if_neg (by omega : ¬maxIter ≤ 0)]
    rw [hval]
  have hmain := runLoop_budget cfg ex maxIter hex hclosed maxIter.toNat
    (if entrypoint = "" then cfg.DefaultEntrypoint else entrypoint) prompt [] hlk
  rw [hrw]
  refine ⟨hmain.1, by rw [hmain.2]; simp, ?_, ?_⟩
  · rw [hmain.1]
    exact fun h => Except.noConfusion h
  · intro s msg h
    rw [hmain.1] at h
    injection h with h
    exact RunError.noConfusion h

/-- Witness for C5: the two-node mutual-loop graph with cap 3 fails with the
budget-exceeded error after exactly 3 executed steps. -/
theorem C5_iteration_budget_witness :
    (RunWith mutualLoopCfg 3 "" "" exAlwaysOk).1 = .error (.maxIterationsReached 3)
    ∧ (RunWith mutualLoopCfg 3 "" "" exAlwaysOk).2.length = Int.toNat 3 := by
  have hclosed : ∀ (name : String) (sk : Skill), lookupSkill mutualLoopCfg name = some sk →
      ∀ s, resolveNext sk.Next s ≠ "<DONE>"
        ∧ (lookupSkill mutualLoopCfg (resolveNext sk.Next s)).isSome := by
    intro name sk h s
    by_cases ha : name = "a"
    · subst ha
      have hsk : sk = skillToB := by
        simpa [mutualLoopCfg, lookupSkill, List.find?] using h.symm
      subst hsk
      have hrn : resolveNext skillToB.Next s = "b" := by
        simp [skillToB, resolveNext]
      rw [hrn]
      exact ⟨by decide, by decide⟩
    · by_cases hb : name = "b"
      · subst hb
        have hsk : sk = skillToA := by
          simpa [mutualLoopCfg, lookupSkill, List.find?] using h.symm
        subst hsk
        have hrn : resolveNext skillToA.Next s = "a" := by
          simp [skillToA, resolveNext]
        rw [hrn]
        exact ⟨by decide, by decide⟩
      · exfalso
        have ha2 : ("a" : String) ≠ name := fun hh => ha hh.symm
        have hb2 : ("b" : String) ≠ name := fun hh => hb hh.symm
        simp [mutualLoopCfg, lookupSkill, List.find?, beq_eq_false_iff_ne.mpr ha2,
          beq_eq_false_iff_ne.mpr hb2] at h
  have h := C5_iteration_budget mutualLoopCfg exAlwaysOk 3 "" "" (by omega)
    (fun k => ⟨{ Summary := "x" }, rfl⟩) hclosed (by decide) (by decide)
  exact ⟨h.1, h.2.1⟩

lemma updateLastOutputAt_Status (meta : Metadata) (env : SessionEnv) :
    (updateLastOutputAt meta env).Status = meta.Status := rfl

lemma updateLastOutputAt_LastError (meta : Metadata) (env : SessionEnv) :
    (updateLastOutputAt meta env).LastError = meta.LastError := rfl

lemma updateLastOutputAt_EndedAt (meta : Metadata) (env : SessionEnv) :
    (updateLastOutputAt meta env).EndedAt = meta.EndedAt := rfl

lemma Reconcile_exit_char (meta : Metadata) (env : SessionEnv) (code : Int)
    (hexit : ReadExitCode env.exitFile = .ok (some code)) :
    Reconcile meta env = .ok (reconciledExit meta env code, env.tmuxAlive) := by
  simp only [Reconcile, hexit]
  by_cases hc : code = 0 <;> by_cases he : meta.EndedAt = none <;>
    simp [reconciledExit, hc, he, updateLastOutputAt_EndedAt, Metadata.mk.injEq,
      updateLastOutputAt]

/-- C3: when the exit-code file already exists, a second `Reconcile` yields
the same terminal status as the first (Done for exit code 0, Failed
otherwise), and the second call issues no kill command when the backing
session is already absent. -/
theorem C3_reconcile_idempotent (meta m1 m2 : Metadata) (k1 k2 : Bool)
    (env env2 : SessionEnv) (code : Int)
    (hexit : ReadExitCode env.exitFile = .ok (some code))
    (hexit2 : ReadExitCode env2.exitFile = .ok (some code))
    (hdead : env2.tmuxAlive = false)
    (h1 : Reconcile meta env = .ok (m1, k1))
    (h2 : Reconcile m1 env2 = .ok (m2, k2)) :
    m1.Status = (if code = 0 then GoStatus.done else GoStatus.failed)
    ∧ m2.Status = m1.Status
    ∧ k2 = false := by
  rw [Reconcile_exit_char meta env code hexit] at h1
  rw [Reconcile_exit_char m1 env2 code hexit2] at h2
  obtain ⟨hm1, hk1⟩ : m1 = reconciledExit meta env code ∧ k1 = env.tmuxAlive := by
    simpa [Prod.ext_iff, eq_comm] using h1
  obtain ⟨hm2, hk2⟩ : m2 = reconciledExit m1 env2 code ∧ k2 = env2.tmuxAlive := by
    simpa [Prod.ext_iff, eq_comm] using h2
  subst hm1 hm2
  refine ⟨rfl, ?_, by rw [hk2, hdead]⟩
  by_cases hc : code = 0 <;> simp [reconciledExit, hc]

/-- Witness for C3: exit code 0 with a live session classifies Done; the
second reconciliation against the dead session yields Done again and issues
no kill. -/
theorem C3_reconcile_idempotent_witness :
    (reconciledExit metaRunningFx envExitZeroFx 0).Status
        = (if (0 : Int) = 0 then GoStatus.done else GoStatus.failed)
    ∧ (reconciledExit (reconciledExit metaRunningFx envExitZeroFx 0) envExitZeroDeadFx 0).Status
        = (reconciledExit metaRunningFx envExitZeroFx 0).Status
    ∧ false = false :=
  C3_reconcile_idempotent metaRunningFx
    (reconciledExit metaRunningFx envExitZeroFx 0)
    (reconciledExit (reconciledExit metaRunningFx envExitZeroFx 0) envExitZeroDeadFx 0)
    true false envExitZeroFx envExitZeroDeadFx 0
    (by decide) (by decide) rfl (by decide) (by decide)

/-- Counterexample for C4: metadata already in the terminal status Done is
reset to Running by `Reconcile` when the exit-code file is absent but the
backing session is alive (the self-heal branch). -/
theorem C4_terminal_reentry_counterexample :
    metaDoneFx.Status = GoStatus.done
    ∧ Reconcile metaDoneFx envNoExitAliveFx = .ok (metaHealedFx, false)
    ∧ metaHealedFx.Status = GoStatus.running :=
  ⟨rfl, by decide, rfl⟩

/-- C4 (amended): a terminal status (Done, Failed, Stopped) never re-enters
Running through `Reconcile` as long as the exit-code file is present or the
backing session is absent; the remaining combination — no exit-code file and
a live backing session — self-heals any status back to Running. -/
theorem C4_terminal_no_reentry_amended (meta m2 : Metadata) (env : SessionEnv) (k : Bool)
    (hterm : meta.Status = GoStatus.done ∨ meta.Status = GoStatus.failed
      ∨ meta.Status = GoStatus.stopped)
    (hsafe : (∃ code, ReadExitCode env.exitFile = .ok (some code)) ∨ env.tmuxAlive = false)
    (h : Reconcile meta env = .ok (m2, k)) :
    m2.Status ≠ GoStatus.running := by
  cases hexit : ReadExitCode env.exitFile with
  | error e =>
    simp only [Reconcile, hexit] at h
    exact Except.noConfusion h
  | ok oc =>
    cases oc with
    | some code =>
      rw [Reconcile_exit_char meta env code hexit] at h
      obtain ⟨hm2, hk⟩ : m2 = reconciledExit meta env code ∧ k = env.tmuxAlive := by
        simpa [Prod.ext_iff, eq_comm] using h
      subst hm2
      by_cases hc : code = 0 <;> simp [reconciledExit, hc]
    | none =>
      have hdead : env.tmuxAlive = false := by
        rcases hsafe with ⟨code, hcode⟩ | hdead
        · rw [hexit] at hcode
          exact absurd hcode (by simp)
        · exact hdead
      simp only [Reconcile, hexit, hdead] at h
      have hcond : ¬((updateLastOutputAt meta env).Status = GoStatus.running
          ∨ (updateLastOutputAt meta env).Status = GoStatus.idle
          ∨ (updateLastOutputAt meta env).Status = GoStatus.pending) := by
        rw [updateLastOutputAt_Status]
        rcases hterm with ht | ht | ht <;> simp [ht]
      rw [if_neg hcond] at h
      simp only [Bool.false_eq_true, if_false] at h
      obtain ⟨hm2, hk⟩ : m2 = updateLastOutputAt meta env ∧ k = false := by
        simpa [Prod.ext_iff, eq_comm] using h
      subst hm2
      rw [updateLastOutputAt_Status]
      rcases hterm with ht | ht | ht <;> simp [ht]

/-- Witness for C4 (amended): a Stopped session reconciled against a
vanished backing session keeps a non-Running status. -/
theorem C4_terminal_no_reentry_amended_witness :
    metaStoppedFx.Status ≠ GoStatus.running :=
  C4_terminal_no_reentry_amended metaStoppedFx metaStoppedFx envVanishedFx false
    (Or.inr (Or.inr rfl)) (Or.inr rfl) (by decide)

/-- C10: `Reconcile` stamps an end timestamp only when one was not already
set (a set timestamp is never replaced by a different instant), and in the
vanished-session branch it writes the "tmux session disappeared before exit
code was written" message only when the last-error field was empty,
preserving any pre-existing message. -/
theorem C10_reconcile_frame (meta m2 : Metadata) (env : SessionEnv) (k : Bool)
    (h : Reconcile meta env = .ok (m2, k)) :
    (∀ t, m2.EndedAt = some t → m2.EndedAt = meta.EndedAt ∨ (meta.EndedAt = none ∧ t = env.now))
    ∧ (ReadExitCode env.exitFile = .ok none → env.tmuxAlive = false →
        (meta.Status = GoStatus.running ∨ meta.Status = GoStatus.idle
          ∨ meta.Status = GoStatus.pending) →
        m2.LastError = (if meta.LastError = ""
          then "tmux session disappeared before exit code was written"
          else meta.LastError)) := by
  cases hexit : ReadExitCode env.exitFile with
  | error e =>
    simp only [Reconcile, hexit] at h
    exact Except.noConfusion h
  | ok oc =>
    cases oc with
    | some code =>
      rw [Reconcile_exit_char meta env code hexit] at h
      obtain ⟨hm2, hk⟩ : m2 = reconciledExit meta env code ∧ k = env.tmuxAlive := by
        simpa [Prod.ext_iff, eq_comm] using h
      subst hm2
      constructor
      · intro t ht
        by_cases he : meta.EndedAt = none
        · right
          refine ⟨he, ?_⟩
          simp only [reconciledExit, he, if_pos rfl] at ht
          simpa using ht.symm
        · left
          simp [reconciledExit, he]
      · intro hnone
        exact absurd hnone (by simp)
    | none =>
      simp only [Reconcile, hexit] at h
      by_cases halive : env.tmuxAlive = true
      · rw [if_pos halive] at h
        by_cases hrun : (updateLastOutputAt meta env).Status ≠ GoStatus.running
        · rw [if_pos hrun] at h
          obtain ⟨hm2, hk⟩ : m2 = { updateLastOutputAt meta env with
              Status := GoStatus.running, EndedAt := none } ∧ k = false := by
            simpa [Prod.ext_iff, eq_comm] using h
          constructor
          · intro t ht
            rw [hm2] at ht
            exact absurd ht (by simp)
          · intro _ hdead
            rw [hdead] at halive
            exact absurd halive (by simp)
        · rw [if_neg hrun] at h
          obtain ⟨hm2, hk⟩ : m2 = updateLastOutputAt meta env ∧ k = false := by
            simpa [Prod.ext_iff, eq_comm] using h
          constructor
          · intro t ht
            left
            rw [hm2, updateLastOutputAt_EndedAt]
          · intro _ hdead
            rw [hdead] at halive
            exact absurd halive (by simp)
      · have hdead : env.tmuxAlive = false := by simpa using halive
        rw [hdead] at h
        simp only [Bool.false_eq_true, if_false] at h
        by_cases hcond : (updateLastOutputAt meta env).Status = GoStatus.running
            ∨ (updateLastOutputAt meta env).Status = GoStatus.idle
            ∨ (updateLastOutputAt meta env).Status = GoStatus.pending
        · rw [if_pos hcond] at h
          by_cases he : (updateLastOutputAt meta env).EndedAt = none
          · rw [if_pos he] at h
            obtain ⟨hm2, hk⟩ : m2 = { updateLastOutputAt meta env with
                Status := GoStatus.failed,
                LastError := if (updateLastOutputAt meta env).LastError = ""
                  then "tmux session disappeared before exit code was written"
                  else (updateLastOutputAt meta env).LastError,
                EndedAt := some env.now } ∧ k = false := by
              simpa [Prod.ext_iff, eq_comm] using h
            constructor
            · intro t ht
              right
              rw [updateLastOutputAt_EndedAt] at he
              refine ⟨he, ?_⟩
              rw [hm2] at ht
              simpa using ht.symm
            · intro _ _ _
              rw [hm2]
              simp [updateLastOutputAt_LastError]
          · rw [if_neg he] at h
            obtain ⟨hm2, hk⟩ : m2 = { updateLastOutputAt meta env with
                Status := GoStatus.failed,
                LastError := if (updateLastOutputAt meta env).LastError = ""
                  then "tmux session disappeared before exit code was written"
                  else (updateLastOutputAt meta env).LastError } ∧ k = false := by
              simpa [Prod.ext_iff, eq_comm] using h
            constructor
            · intro t ht
              left
              rw [hm2]
              exact (updateLastOutputAt_EndedAt meta env)
            · intro _ _ _
              rw [hm2]
              simp [updateLastOutputAt_LastError]
        · rw [if_neg hcond] at h
          obtain ⟨hm2, hk⟩ : m2 = updateLastOutputAt meta env ∧ k = false := by
            simpa [Prod.ext_iff, eq_comm] using h
          constructor
          · intro t ht
            left
            rw [hm2, updateLastOutputAt_EndedAt]
          · intro _ _ hact
            exfalso
            apply hcond
            rw [updateLastOutputAt_Status]
            exact hact

/-- Witness for C10: reconciling a running session whose backing session
vanished stamps the disappearance message because the last-error field was
empty. -/
theorem C10_reconcile_frame_witness :
    (∀ t, (Metadata.EndedAt
        { Status := GoStatus.failed,
          LastError := "tmux session disappeared before exit code was written",
          EndedAt := some 11, LastOutputAt := 0 }) = some t →
      (Metadata.EndedAt
        { Status := GoStatus.failed,
          LastError := "tmux session disappeared before exit code was written",
          EndedAt := some 11, LastOutputAt := 0 }) = metaRunningFx.EndedAt
        ∨ (metaRunningFx.EndedAt = none ∧ t = envVanishedFx.now))
    ∧ (ReadExitCode envVanishedFx.exitFile = .ok none → envVanishedFx.tmuxAlive = false →
        (metaRunningFx.Status = GoStatus.running ∨ metaRunningFx.Status = GoStatus.idle
          ∨ metaRunningFx.Status = GoStatus.pending) →
        (Metadata.LastError
          { Status := GoStatus.failed,
            LastError := "tmux session disappeared before exit code was written",
            EndedAt := some 11, LastOutputAt := 0 })
          = (if metaRunningFx.LastError = ""
            then "tmux session disappeared before exit code was written"
            else metaRunningFx.LastError)) :=
  C10_reconcile_frame metaRunningFx
    { Status := GoStatus.failed,
      LastError := "tmux session disappeared before exit code was written",
      EndedAt := some 11, LastOutputAt := 0 }
    envVanishedFx false (by decide)

end SkillLoop
